import Mathlib

/-!
Shallow embedding of the simulation engine of the pulse-echo-gui repository
(`pulseechogui/core/spinechoshaped.py`), together with theorems checking the
natural-language specification of the engine against the code.

Conventions of the embedding:
* Python floats become real numbers `ℝ`; complex matrices become
  `Matrix (Fin 2) (Fin 2) ℂ`; `scipy.linalg.expm` becomes the Banach-algebra
  exponential `NormedSpace.exp ℂ`.
* Fallible code (raised `ValueError`s) becomes `Except SimError`.
* numpy's global normal sampler is modelled by an explicit function argument
  `randn : ℕ → ℕ → ℝ`, where `randn s k` is the k-th standard-normal draw
  after the generator state has been set to `s`; the ambient (unseeded)
  generator state is an explicit `ambient : ℕ` argument.
-/

open Matrix

noncomputable section

abbrev Mat2 := Matrix (Fin 2) (Fin 2) ℂ

/-- Errors raised by the engine (each `ValueError` site gets a constructor). -/
inductive SimError where
  | arrayLengthMismatch (name : String)
  | unknownEnvelope (s : String)
  | unknownBaseShape (s : String)
  | unknownShapeType (s : String)
  | unknownObservable (s : String)
  | unknownDistribution (s : String)
  | detectionNotSet
  deriving DecidableEq

/-- `SZ = 0.5 * [[1, 0], [0, -1]]`. -/
def SZ : Mat2 := (1/2 : ℂ) • !![1, 0; 0, -1]

/-- `SX = 0.5 * [[0, 1], [1, 0]]`. -/
def SX : Mat2 := (1/2 : ℂ) • !![0, 1; 1, 0]

/-- `SY = 0.5 * [[0, 1j], [-1j, 0]]`. -/
def SY : Mat2 := (1/2 : ℂ) • !![0, Complex.I; -Complex.I, 0]

/-- `np.linspace a b n`: `n` evenly spaced samples from `a` to `b` inclusive. -/
def linspace (a b : ℝ) (n : ℕ) : List ℝ :=
  (List.range n).map (fun (i : ℕ) => if n ≤ 1 then a else a + (b - a) * (i : ℝ) / ((n : ℝ) - 1))

/-- `np.cumsum`: running sums of a list. -/
def cumsum : List ℝ → List ℝ
  | [] => []
  | x :: xs => x :: (cumsum xs).map (fun y => x + y)

/-- `np.trapezoid y x`: trapezoid-rule integral of samples `y` over axis `x`. -/
def trapezoid : List ℝ → List ℝ → ℝ
  | y1 :: y2 :: ys, x1 :: x2 :: xs => (x2 - x1) * (y1 + y2) / 2 + trapezoid (y2 :: ys) (x2 :: xs)
  | _, _ => 0

/-- The four equal-length arrays of a `PulseShape` dataclass instance. -/
structure PulseShape where
  amplitude : List ℝ
  phase : List ℝ
  frequency : List ℝ
  time_axis : List ℝ

/-- `PulseShape.__post_init__`: constructing a `PulseShape` checks, in order,
that the amplitude, phase and frequency arrays match the time-axis length. -/
def mkPulseShape (amplitude phase frequency time_axis : List ℝ) :
    Except SimError PulseShape :=
  let n := time_axis.length
  if amplitude.length ≠ n then .error (.arrayLengthMismatch "amplitude")
  else if phase.length ≠ n then .error (.arrayLengthMismatch "phase")
  else if frequency.length ≠ n then .error (.arrayLengthMismatch "frequency")
  else .ok ⟨amplitude, phase, frequency, time_axis⟩

namespace PulseShapeFactory

/-- `PulseShapeFactory.gaussian`. -/
def gaussian (duration : ℝ) (n_points : ℕ) (sigma_factor : ℝ) : PulseShape :=
  let time_axis := linspace 0 duration n_points
  let t_center := duration / 2
  let sigma := duration / sigma_factor
  { amplitude := time_axis.map (fun t => Real.exp (-(1/2) * ((t - t_center) / sigma) ^ 2))
    phase := time_axis.map (fun _ => 0)
    frequency := time_axis.map (fun _ => 0)
    time_axis := time_axis }

/-- `PulseShapeFactory.square` (rise/fall segments overwrite the flat envelope). -/
def square (duration : ℝ) (n_points : ℕ) (rise_time : ℝ) : PulseShape :=
  let time_axis := linspace 0 duration n_points
  let flat : List ℝ := time_axis.map (fun _ => 1)
  let amplitude :=
    if 0 < rise_time then
      let rise_samples := ⌊rise_time / duration * n_points⌋₊
      if 0 < rise_samples then
        let withRise := linspace 0 1 rise_samples ++ flat.drop rise_samples
        withRise.take (n_points - rise_samples) ++ linspace 1 0 rise_samples
      else flat
    else flat
  { amplitude := amplitude
    phase := time_axis.map (fun _ => 0)
    frequency := time_axis.map (fun _ => 0)
    time_axis := time_axis }

/-- `PulseShapeFactory.sech`. -/
def sech (duration : ℝ) (n_points : ℕ) (beta : ℝ) : PulseShape :=
  let time_axis := linspace 0 duration n_points
  let t_center := duration / 2
  { amplitude := time_axis.map (fun t => 1 / Real.cosh (beta * (t - t_center) / duration))
    phase := time_axis.map (fun _ => 0)
    frequency := time_axis.map (fun _ => 0)
    time_axis := time_axis }

/-- `PulseShapeFactory.wurst`: truncated-power amplitude envelope, linear
frequency sweep, phase accumulated as `cumsum(frequency) * dt * 2π`. -/
def wurst (duration : ℝ) (n_points : ℕ) (freq_start freq_end : ℝ)
    (wurst_n : ℕ) (amplitude_factor : ℝ) : PulseShape :=
  let time_axis := linspace 0 duration n_points
  let amplitude := time_axis.map
    (fun t => max (amplitude_factor * (1 - |2 * t / duration - 1| ^ wurst_n)) 0)
  let frequency := linspace freq_start freq_end n_points
  let dt := if 1 < n_points then duration / ((n_points : ℝ) - 1) else 0
  let phase := (cumsum frequency).map (fun s => s * dt * (2 * Real.pi))
  { amplitude := amplitude, phase := phase, frequency := frequency, time_axis := time_axis }

/-- `PulseShapeFactory.chirp`: wurst-style sweep with a named envelope. -/
def chirp (duration : ℝ) (n_points : ℕ) (freq_start freq_end : ℝ)
    (envelope : String) (env_sigma_factor env_beta : ℝ) :
    Except SimError PulseShape :=
  let time_axis := linspace 0 duration n_points
  let frequency := linspace freq_start freq_end n_points
  let dt := if 1 < n_points then duration / ((n_points : ℝ) - 1) else 0
  let phase := (cumsum frequency).map (fun s => s * dt * (2 * Real.pi))
  if envelope = "gaussian" then
    .ok { amplitude := (gaussian duration n_points env_sigma_factor).amplitude
          phase := phase, frequency := frequency, time_axis := time_axis }
  else if envelope = "square" then
    .ok { amplitude := time_axis.map (fun _ => 1)
          phase := phase, frequency := frequency, time_axis := time_axis }
  else if envelope = "sech" then
    .ok { amplitude := (sech duration n_points env_beta).amplitude
          phase := phase, frequency := frequency, time_axis := time_axis }
  else .error (.unknownEnvelope envelope)

/-- `PulseShapeFactory.noisy`: base shape plus per-sample normal perturbations,
amplitude clamped to `≥ 0`.  `randn s k` models the k-th draw of
`np.random.randn` after seeding with state `s`; the three `randn(n_points)`
calls consume stream positions `[0,n)`, `[n,2n)`, `[2n,3n)`.  With
`seed = some s` the generator is reseeded to `s`; with `seed = none` the
ambient generator state is used. -/
def noisy (randn : ℕ → ℕ → ℝ) (duration : ℝ) (n_points : ℕ) (base_shape : String)
    (amp_noise phase_noise freq_noise : ℝ) (seed : Option ℕ) (ambient : ℕ) :
    Except SimError PulseShape :=
  let rngState := match seed with
    | some s => s
    | none => ambient
  let base : Except SimError PulseShape :=
    if base_shape = "gaussian" then .ok (gaussian duration n_points 4.0)
    else if base_shape = "square" then .ok (square duration n_points 0.0)
    else if base_shape = "sech" then .ok (sech duration n_points 5.0)
    else .error (.unknownBaseShape base_shape)
  match base with
  | .error e => .error e
  | .ok base_pulse =>
    let amp_fluctuations := (List.range n_points).map (fun k => 1 + amp_noise * randn rngState k)
    let phase_fluctuations := (List.range n_points).map
      (fun k => phase_noise * randn rngState (n_points + k))
    let freq_fluctuations := (List.range n_points).map
      (fun k => freq_noise * randn rngState (2 * n_points + k))
    let amplitude := (base_pulse.amplitude.zip amp_fluctuations).map (fun p => p.1 * p.2)
    let phase := (base_pulse.phase.zip phase_fluctuations).map (fun p => p.1 + p.2)
    let frequency := (base_pulse.frequency.zip freq_fluctuations).map (fun p => p.1 + p.2)
    .ok { amplitude := amplitude.map (fun a => max a 0)
          phase := phase, frequency := frequency, time_axis := base_pulse.time_axis }

end PulseShapeFactory

-- =============================================================================
-- QUANTUM EVOLUTION ENGINE
-- =============================================================================

/-- `scipy.linalg.expm` on 2x2 complex matrices. -/
def expm (A : Mat2) : Mat2 := NormedSpace.exp ℂ A

namespace QuantumEvolution

/-- `QuantumEvolution._calculate_amplitude_scaling`:
`flip_angle / trapezoid(amplitude, time_axis)` when the integral exceeds
`1e-12`, and `0` otherwise. -/
def calculate_amplitude_scaling (amplitude time_axis : List ℝ) (flip_angle : ℝ) : ℝ :=
  let integral_amplitude := trapezoid amplitude time_axis
  if 1e-12 < integral_amplitude then flip_angle / integral_amplitude else 0

/-- `QuantumEvolution._normalize_multiaxis_amplitudes`. -/
def normalize_multiaxis_amplitudes (sx_amp sy_amp : ℝ) : ℝ × ℝ :=
  let total_amplitude := Real.sqrt (sx_amp ^ 2 + sy_amp ^ 2)
  if 1e-12 < total_amplitude then (sx_amp / total_amplitude, sy_amp / total_amplitude)
  else (1, 0)

/-- `QuantumEvolution._build_slice_hamiltonian` (the unused `dt` argument of
the source is kept). -/
def build_slice_hamiltonian (amp phase freq_offset detuning _dt sx_norm sy_norm : ℝ) :
    Mat2 :=
  let rf_term : Mat2 :=
    if 1e-12 < |amp| then
      let sx_rotated := (Real.cos phase : ℂ) • SX - (Real.sin phase : ℂ) • SY
      let sy_rotated := (Real.sin phase : ℂ) • SX + (Real.cos phase : ℂ) • SY
      (amp : ℂ) • ((sx_norm : ℂ) • sx_rotated + (sy_norm : ℂ) • sy_rotated)
    else 0
  let total_detuning := detuning + freq_offset
  let detuning_term : Mat2 :=
    if 1e-12 < |total_detuning| then (total_detuning : ℂ) • SZ else 0
  rf_term + detuning_term

/-- `QuantumEvolution._evolve_single_slice`: conjugate the state by
`expm(-i H dt)` unless every entry of `H` is below the `1e-12` threshold. -/
def evolve_single_slice (state : Mat2) (ps : PulseShape) (slice_idx : ℕ)
    (dt amplitude_scale detuning sx_norm sy_norm : ℝ) : Mat2 :=
  let amp := ps.amplitude.getD slice_idx 0 * amplitude_scale
  let phase := ps.phase.getD slice_idx 0
  let freq_offset := ps.frequency.getD slice_idx 0
  let H_total := build_slice_hamiltonian amp phase freq_offset detuning dt sx_norm sy_norm
  if ∃ j k, 1e-12 < Complex.abs (H_total j k) then
    let U_slice := expm ((-Complex.I * (dt : ℂ)) • H_total)
    U_sliceᴴ * state * U_slice
  else state

/-- `QuantumEvolution.evolve_shaped_pulse`: time-sliced evolution through the
shape; fewer than two samples leave the state unchanged. -/
def evolve_shaped_pulse (initial_state : Mat2) (ps : PulseShape)
    (flip_angle detuning sx_amplitude sy_amplitude : ℝ) : Mat2 :=
  let n_slices := ps.time_axis.length
  if n_slices < 2 then initial_state
  else
    let dt := ps.time_axis.getD 1 0 - ps.time_axis.getD 0 0
    let amplitude_scale := calculate_amplitude_scaling ps.amplitude ps.time_axis flip_angle
    let norms := normalize_multiaxis_amplitudes sx_amplitude sy_amplitude
    (List.range (n_slices - 1)).foldl
      (fun st i => evolve_single_slice st ps i dt amplitude_scale detuning norms.1 norms.2)
      initial_state

/-- `QuantumEvolution.evolve_free_precession`: conjugate by
`expm(-i·detuning·SZ·duration)` when `|detuning * duration| > 1e-12`, else
return the state unchanged. -/
def evolve_free_precession (state : Mat2) (duration detuning : ℝ) : Mat2 :=
  if 1e-12 < |detuning * duration| then
    let U_delay := expm ((-Complex.I * (detuning : ℂ) * (duration : ℂ)) • SZ)
    U_delayᴴ * state * U_delay
  else state

end QuantumEvolution

-- =============================================================================
-- SEQUENCE OPERATIONS
-- =============================================================================

/-- The `shape_params` dict of `PulseParameters`: each key either absent
(`none`) or present with its value.  `seed` is doubly optional because the
present value may itself be `None`. -/
structure ShapeParams where
  sigma_factor : Option ℝ := none
  rise_time : Option ℝ := none
  beta : Option ℝ := none
  freq_start : Option ℝ := none
  freq_end : Option ℝ := none
  wurst_n : Option ℕ := none
  amplitude_factor : Option ℝ := none
  envelope : Option String := none
  env_sigma_factor : Option ℝ := none
  env_beta : Option ℝ := none
  base_shape : Option String := none
  amp_noise : Option ℝ := none
  phase_noise : Option ℝ := none
  freq_noise : Option ℝ := none
  seed : Option (Option ℕ) := none

/-- The `PulseParameters` dataclass. -/
structure PulseParameters where
  flip_angle : ℝ
  duration : ℝ
  shape_type : String
  shape_params : ShapeParams
  phase_offset : ℝ := 0
  n_time_slices : ℕ := 100
  sx_amplitude : ℝ := 1
  sy_amplitude : ℝ := 0

/-- The `DetectionParameters` dataclass. -/
structure DetectionParameters where
  dt : ℝ
  points : ℕ
  detect_axes : List String := ["sx", "sy"]

/-- A `ShapedPulse` operation: parameters plus the lazily generated shape
cache (`_pulse_shape_cache`). -/
structure ShapedPulse where
  params : PulseParameters
  pulse_shape_cache : Option PulseShape := none

/-- `ShapedPulse._generate_pulse_shape`: dispatch on `shape_type`, reading
shape parameters from the dict with their source defaults. -/
def generate_pulse_shape (randn : ℕ → ℕ → ℝ) (ambient : ℕ) (p : PulseParameters) :
    Except SimError PulseShape :=
  let duration := p.duration
  let n_points := p.n_time_slices
  let sp := p.shape_params
  if p.shape_type = "gaussian" then
    .ok (PulseShapeFactory.gaussian duration n_points (sp.sigma_factor.getD 4.0))
  else if p.shape_type = "square" then
    .ok (PulseShapeFactory.square duration n_points (sp.rise_time.getD 0.0))
  else if p.shape_type = "sech" then
    .ok (PulseShapeFactory.sech duration n_points (sp.beta.getD 5.0))
  else if p.shape_type = "wurst" then
    .ok (PulseShapeFactory.wurst duration n_points (sp.freq_start.getD (-5.0))
      (sp.freq_end.getD 5.0) (sp.wurst_n.getD 40) (sp.amplitude_factor.getD 1.0))
  else if p.shape_type = "chirp" then
    PulseShapeFactory.chirp duration n_points (sp.freq_start.getD (-5.0))
      (sp.freq_end.getD 5.0) (sp.envelope.getD "gaussian")
      (sp.env_sigma_factor.getD 4.0) (sp.env_beta.getD 5.0)
  else if p.shape_type = "noisy" then
    PulseShapeFactory.noisy randn duration n_points (sp.base_shape.getD "gaussian")
      (sp.amp_noise.getD 0.1) (sp.phase_noise.getD 0.1) (sp.freq_noise.getD 0.0)
      (sp.seed.getD none) ambient
  else .error (.unknownShapeType p.shape_type)

/-- `ShapedPulse.get_pulse_shape`: return the cached shape, or generate it and
fill the cache.  The updated operation is returned alongside (Python mutates
`self`). -/
def get_pulse_shape (randn : ℕ → ℕ → ℝ) (ambient : ℕ) (p : ShapedPulse) :
    Except SimError (PulseShape × ShapedPulse) :=
  match p.pulse_shape_cache with
  | some s => .ok (s, p)
  | none =>
      match generate_pulse_shape randn ambient p.params with
      | .error e => .error e
      | .ok s => .ok (s, { p with pulse_shape_cache := some s })

/-- `ShapedPulse.execute`: fetch the (cached) shape, apply a non-negligible
global phase offset by building a fresh `PulseShape`, then run the time-sliced
evolution.  Returns the evolved state together with the operation as it is
left after the call. -/
def ShapedPulse.execute (randn : ℕ → ℕ → ℝ) (ambient : ℕ) (p : ShapedPulse)
    (state : Mat2) (detuning : ℝ) : Except SimError (Mat2 × ShapedPulse) :=
  match get_pulse_shape randn ambient p with
  | .error e => .error e
  | .ok (pulse_shape, p') =>
    let shape_used :=
      if 1e-12 < |p.params.phase_offset| then
        { pulse_shape with phase := pulse_shape.phase.map (fun φ => φ + p.params.phase_offset) }
      else pulse_shape
    .ok (QuantumEvolution.evolve_shaped_pulse state shape_used p.params.flip_angle detuning
      p.params.sx_amplitude p.params.sy_amplitude, p')

/-- A sequence operation: a shaped pulse or a delay. -/
inductive SequenceOp where
  | shapedPulse (p : ShapedPulse)
  | delay (duration : ℝ)

/-- `SequenceOperation.execute`, forgetting the cache update (the regenerated
shape is a pure function of the parameters, so trajectory results do not
depend on the cache state being threaded). -/
def SequenceOp.run (randn : ℕ → ℕ → ℝ) (ambient : ℕ) :
    SequenceOp → Mat2 → ℝ → Except SimError Mat2
  | .shapedPulse p, state, detuning =>
      match ShapedPulse.execute randn ambient p state detuning with
      | .error e => .error e
      | .ok (state', _) => .ok state'
  | .delay d, state, detuning =>
      .ok (QuantumEvolution.evolve_free_precession state d detuning)

-- =============================================================================
-- MAIN SEQUENCE CLASS
-- =============================================================================

/-- The `ShapedPulseSequence` class: ordered operations plus optional
detection parameters. -/
structure ShapedPulseSequence where
  name : String := "Shaped Sequence"
  operations : List SequenceOp := []
  detection_params : Option DetectionParameters := none

namespace ShapedPulseSequence

/-- `ShapedPulseSequence.add_shaped_pulse` (fresh empty cache). -/
def add_shaped_pulse (seq : ShapedPulseSequence) (p : PulseParameters) :
    ShapedPulseSequence :=
  { seq with operations := seq.operations ++ [.shapedPulse { params := p }] }

/-- `ShapedPulseSequence.add_delay`. -/
def add_delay (seq : ShapedPulseSequence) (duration : ℝ) : ShapedPulseSequence :=
  { seq with operations := seq.operations ++ [.delay duration] }

/-- `ShapedPulseSequence.set_detection`. -/
def set_detection (seq : ShapedPulseSequence) (dt : ℝ) (points : ℕ)
    (detect_axes : List String) : ShapedPulseSequence :=
  { seq with detection_params := some ⟨dt, points, detect_axes⟩ }

/-- `ShapedPulseSequence._measure_observable`: the five observables, with a
configuration error for anything else. -/
def measure_observable (state : Mat2) (observable : String) : Except SimError ℂ :=
  if observable = "sx" then .ok ((((state * SX).trace).re : ℂ))
  else if observable = "sy" then .ok ((((state * SY).trace).re : ℂ))
  else if observable = "sz" then .ok ((((state * SZ).trace).re : ℂ))
  else if observable = "s+" then .ok ((state * (SX + Complex.I • SY)).trace)
  else if observable = "s-" then .ok ((state * (SX - Complex.I • SY)).trace)
  else .error (.unknownObservable observable)

/-- The value measured for a known observable (the `.ok` payload of
`measure_observable`). -/
def measureValue (state : Mat2) (observable : String) : ℂ :=
  if observable = "sx" then (((state * SX).trace).re : ℂ)
  else if observable = "sy" then (((state * SY).trace).re : ℂ)
  else if observable = "sz" then (((state * SZ).trace).re : ℂ)
  else if observable = "s+" then (state * (SX + Complex.I • SY)).trace
  else if observable = "s-" then (state * (SX - Complex.I • SY)).trace
  else 0

/-- The five recognized observable names. -/
def validObs (observable : String) : Prop :=
  observable ∈ (["sx", "sy", "sz", "s+", "s-"] : List String)

instance (observable : String) : Decidable (validObs observable) := by
  unfold validObs; infer_instance

/-- The sequence of states visited during detection: the state before each of
the `points` samples, each step conjugating by the detection evolution
operator `U`. -/
def detectStates (U : Mat2) : ℕ → Mat2 → List Mat2
  | 0, _ => []
  | n + 1, state => state :: detectStates U n (Uᴴ * state * U)

/-- `ShapedPulseSequence._detect_signals`: per requested observable, `points`
samples, measuring before each free-evolution step `expm(-i·detuning·SZ·dt)`.
An unknown requested observable is a configuration error (raised at the first
measurement in the source; hoisted here).  The result maps each observable
name to its signal array. -/
def detect_signals (dp : DetectionParameters) (final_state : Mat2) (detuning : ℝ) :
    Except SimError (String → List ℂ) :=
  match dp.detect_axes.find? (fun a => ¬ validObs a) with
  | some bad => .error (.unknownObservable bad)
  | none =>
      let U_evolution := expm ((-Complex.I * (detuning : ℂ) * (dp.dt : ℂ)) • SZ)
      .ok (fun obs => (detectStates U_evolution dp.points final_state).map
        (fun s => measureValue s obs))

/-- Run the operation list in insertion order, propagating the first error. -/
def runOperations (randn : ℕ → ℕ → ℝ) (ambient : ℕ) :
    List SequenceOp → Mat2 → ℝ → Except SimError Mat2
  | [], state, _ => .ok state
  | op :: ops, state, detuning =>
      match SequenceOp.run randn ambient op state detuning with
      | .error e => .error e
      | .ok state' => runOperations randn ambient ops state' detuning

/-- `ShapedPulseSequence.simulate_single_detuning`: require detection
parameters, start from the provided state or thermal equilibrium `SZ`, fold
the operations in order, then detect. -/
def simulate_single_detuning (randn : ℕ → ℕ → ℝ) (ambient : ℕ)
    (seq : ShapedPulseSequence) (detuning : ℝ) (initial_state : Option Mat2) :
    Except SimError (String → List ℂ) :=
  match seq.detection_params with
  | none => .error .detectionNotSet
  | some dp =>
      match runOperations randn ambient seq.operations (initial_state.getD SZ) detuning with
      | .error e => .error e
      | .ok final => detect_signals dp final detuning

end ShapedPulseSequence

-- =============================================================================
-- MAIN SIMULATOR CLASS
-- =============================================================================

namespace ShapedSpinEchoSimulator

/-- `ShapedSpinEchoSimulator._generate_detuning_distribution`: evenly spaced
detuning samples with normalized line-shape weights. -/
def generate_detuning_distribution (detuning_range : ℝ × ℝ) (n_points : ℕ)
    (linewidth : ℝ) (distribution_type : String) :
    Except SimError (List ℝ × List ℝ) :=
  let detuning_values := linspace detuning_range.1 detuning_range.2 n_points
  let rawWeights : Except SimError (List ℝ) :=
    if distribution_type = "gaussian" then
      .ok (detuning_values.map (fun d => Real.exp (-(d / linewidth) ^ 2)))
    else if distribution_type = "lorentzian" then
      .ok (detuning_values.map (fun d => 1 / (1 + (d / linewidth) ^ 2)))
    else if distribution_type = "uniform" then
      .ok (detuning_values.map (fun _ => (1 : ℝ)))
    else .error (.unknownDistribution distribution_type)
  match rawWeights with
  | .error e => .error e
  | .ok weights => .ok (detuning_values, weights.map (fun w => w / weights.sum))

/-- One entry of the transposed/broadcast/summed aggregation of
`_aggregate_results`: `signals_array.T * weights` then `sum(axis=1)` —
component `t` of the result is the sum over samples of
`signal_i[t] * weight_i`. -/
def aggregateObs (weights : List ℝ) (sigs : List (List ℂ)) (points : ℕ) : List ℂ :=
  (List.range points).map
    (fun t => (((sigs.map (fun row => row.getD t 0)).zip weights).map
      (fun p => p.1 * (p.2 : ℂ))).sum)

/-- `ShapedSpinEchoSimulator._aggregate_results`. -/
def aggregate_results (results_list : List (String → List ℂ)) (weights : List ℝ)
    (observables : List String) (points : ℕ) : String → List ℂ :=
  fun obs =>
    if obs ∈ observables then aggregateObs weights (results_list.map (fun r => r obs)) points
    else []

/-- Simulate each detuning sample in order, propagating the first error
(Python's list comprehension). -/
def simulateAll (randn : ℕ → ℕ → ℝ) (ambient : ℕ) (seq : ShapedPulseSequence) :
    List ℝ → Except SimError (List (String → List ℂ))
  | [] => .ok []
  | delta :: rest =>
      match ShapedPulseSequence.simulate_single_detuning randn ambient seq delta none with
      | .error e => .error e
      | .ok r =>
          match simulateAll randn ambient seq rest with
          | .error e => .error e
          | .ok rs => .ok (r :: rs)

/-- `ShapedSpinEchoSimulator.simulate_sequence`: build the detuning
distribution, simulate every detuning sample, aggregate with the normalized
weights. -/
def simulate_sequence (randn : ℕ → ℕ → ℝ) (ambient : ℕ) (seq : ShapedPulseSequence)
    (detuning_range : ℝ × ℝ) (detuning_points : ℕ) (linewidth : ℝ)
    (distribution_type : String) : Except SimError (String → List ℂ) :=
  match generate_detuning_distribution detuning_range detuning_points linewidth
      distribution_type with
  | .error e => .error e
  | .ok (detuning_values, weights) =>
      match simulateAll randn ambient seq detuning_values with
      | .error e => .error e
      | .ok results_list =>
          match seq.detection_params with
          | none => .error .detectionNotSet
          | some dp => .ok (aggregate_results results_list weights dp.detect_axes dp.points)

end ShapedSpinEchoSimulator

open ComplexOrder in
/-- Density-matrix invariant: Hermitian, unit trace, positive semidefinite
(equivalently: non-negative eigenvalues). -/
def IsDensityMatrix (ρ : Mat2) : Prop :=
  ρ.IsHermitian ∧ ρ.trace = 1 ∧ ρ.PosSemidef

/-- The specification formula for the aggregated signal, written from the
spec's words: component `t` is `Σ_i weight_i × signal_i[t]`. -/
def specWeightedSum (weights : List ℝ) (sigs : List (List ℂ)) (points : ℕ) : List ℂ :=
  (List.range points).map
    (fun t => ((weights.zip sigs).map (fun p => (p.1 : ℂ) * p.2.getD t 0)).sum)

-- =============================================================================
-- THEOREMS: helper lemmas
-- =============================================================================

lemma SX_conjTranspose : SXᴴ = SX := by
  unfold SX
  rw [Matrix.conjTranspose_smul]
  congr 1
  · simp
  · ext i j
    fin_cases i <;> fin_cases j <;> simp [Matrix.conjTranspose_apply]

lemma SY_conjTranspose : SYᴴ = SY := by
  unfold SY
  rw [Matrix.conjTranspose_smul]
  congr 1
  · simp
  · ext i j
    fin_cases i <;> fin_cases j <;> simp [Matrix.conjTranspose_apply]

lemma SZ_conjTranspose : SZᴴ = SZ := by
  unfold SZ
  rw [Matrix.conjTranspose_smul]
  congr 1
  · simp
  · ext i j
    fin_cases i <;> fin_cases j <;> simp [Matrix.conjTranspose_apply]

lemma realSmul_conjTranspose (r : ℝ) {A : Mat2} (h : Aᴴ = A) :
    ((r : ℂ) • A)ᴴ = (r : ℂ) • A := by
  rw [Matrix.conjTranspose_smul, h, Complex.star_def, Complex.conj_ofReal]

/-- `expm A` is unitary whenever `A` is skew-Hermitian. -/
lemma expm_unitary {A : Mat2} (h : Aᴴ = -A) :
    expm A * (expm A)ᴴ = 1 ∧ (expm A)ᴴ * expm A = 1 := by
  have hconj : (expm A)ᴴ = expm (-A) := by
    rw [← h, expm, expm, Matrix.exp_conjTranspose]
  have hcomm : Commute A (-A) := (Commute.refl A).neg_right
  constructor
  · rw [hconj, expm, expm, ← Matrix.exp_add_of_commute ℂ A (-A) hcomm, add_neg_cancel,
      NormedSpace.exp_zero]
  · rw [hconj, expm, expm, ← Matrix.exp_add_of_commute ℂ (-A) A hcomm.symm, neg_add_cancel,
      NormedSpace.exp_zero]

open ComplexOrder in
/-- A unitary similarity transform `U† ρ U` preserves the density-matrix
invariant. -/
lemma conj_preserves_density {ρ U : Mat2} (hρ : IsDensityMatrix ρ)
    (hU : U * Uᴴ = 1) : IsDensityMatrix (Uᴴ * ρ * U) := by
  obtain ⟨hherm, htr, hpsd⟩ := hρ
  refine ⟨?_, ?_, ?_⟩
  · have : (Uᴴ * ρ * U)ᴴ = Uᴴ * ρ * U := by
      calc (Uᴴ * ρ * U)ᴴ = Uᴴ * ρᴴ * (Uᴴ)ᴴ := by
            rw [Matrix.conjTranspose_mul, Matrix.conjTranspose_mul,
              Matrix.conjTranspose_conjTranspose, Matrix.mul_assoc]
        _ = Uᴴ * ρ * U := by rw [hherm.eq, Matrix.conjTranspose_conjTranspose]
    exact this
  · calc (Uᴴ * ρ * U).trace = (U * Uᴴ * ρ).trace := by
          rw [Matrix.trace_mul_cycle]
      _ = ρ.trace := by rw [hU, Matrix.one_mul]
      _ = 1 := htr
  · exact hpsd.conjTranspose_mul_mul_same U

/-- The per-slice Hamiltonian of the source is Hermitian. -/
lemma build_slice_hamiltonian_hermitian (amp phase freq_offset detuning dt sx_norm sy_norm : ℝ) :
    (QuantumEvolution.build_slice_hamiltonian amp phase freq_offset detuning dt sx_norm sy_norm)ᴴ
      = QuantumEvolution.build_slice_hamiltonian amp phase freq_offset detuning dt sx_norm sy_norm := by
  unfold QuantumEvolution.build_slice_hamiltonian
  have hrot1 : ((Real.cos phase : ℂ) • SX - (Real.sin phase : ℂ) • SY)ᴴ
      = (Real.cos phase : ℂ) • SX - (Real.sin phase : ℂ) • SY := by
    rw [Matrix.conjTranspose_sub, realSmul_conjTranspose _ SX_conjTranspose,
      realSmul_conjTranspose _ SY_conjTranspose]
  have hrot2 : ((Real.sin phase : ℂ) • SX + (Real.cos phase : ℂ) • SY)ᴴ
      = (Real.sin phase : ℂ) • SX + (Real.cos phase : ℂ) • SY := by
    rw [Matrix.conjTranspose_add, realSmul_conjTranspose _ SX_conjTranspose,
      realSmul_conjTranspose _ SY_conjTranspose]
  rw [Matrix.conjTranspose_add]
  congr 1
  · split
    · rw [realSmul_conjTranspose]
      rw [Matrix.conjTranspose_add, realSmul_conjTranspose _ hrot1,
        realSmul_conjTranspose _ hrot2]
    · simp
  · split
    · rw [realSmul_conjTranspose _ SZ_conjTranspose]
    · simp

/-- `-i·dt` times a Hermitian matrix is skew-Hermitian (`dt` real). -/
lemma neg_I_smul_hermitian_skew (dt : ℝ) {H : Mat2} (h : Hᴴ = H) :
    ((-Complex.I * (dt : ℂ)) • H)ᴴ = -((-Complex.I * (dt : ℂ)) • H) := by
  rw [Matrix.conjTranspose_smul, h, ← neg_smul]
  congr 1
  simp [Complex.star_def, Complex.conj_ofReal]

/-- A single time slice preserves the density-matrix invariant: it either
conjugates by the unitary `expm(-i·H·dt)` or leaves the state unchanged. -/
lemma evolve_single_slice_preserves {state : Mat2} (hρ : IsDensityMatrix state)
    (ps : PulseShape) (slice_idx : ℕ) (dt amplitude_scale detuning sx_norm sy_norm : ℝ) :
    IsDensityMatrix (QuantumEvolution.evolve_single_slice state ps slice_idx dt
      amplitude_scale detuning sx_norm sy_norm) := by
  simp only [QuantumEvolution.evolve_single_slice]
  split
  · exact conj_preserves_density hρ
      (expm_unitary (neg_I_smul_hermitian_skew dt
        (build_slice_hamiltonian_hermitian _ _ _ _ _ _ _))).1
  · exact hρ

/-- The whole time-sliced shaped-pulse evolution preserves the invariant. -/
lemma evolve_shaped_pulse_preserves {state : Mat2} (hρ : IsDensityMatrix state)
    (ps : PulseShape) (flip_angle detuning sx_amplitude sy_amplitude : ℝ) :
    IsDensityMatrix (QuantumEvolution.evolve_shaped_pulse state ps flip_angle detuning
      sx_amplitude sy_amplitude) := by
  simp only [QuantumEvolution.evolve_shaped_pulse]
  split
  · exact hρ
  · generalize (List.range (ps.time_axis.length - 1)) = l
    induction l generalizing state with
    | nil => exact hρ
    | cons i l ih => exact ih (evolve_single_slice_preserves hρ ps i _ _ _ _ _)

/-- Free precession (a delay) preserves the invariant. -/
lemma evolve_free_precession_preserves {state : Mat2} (hρ : IsDensityMatrix state)
    (duration detuning : ℝ) :
    IsDensityMatrix (QuantumEvolution.evolve_free_precession state duration detuning) := by
  simp only [QuantumEvolution.evolve_free_precession]
  split
  · refine conj_preserves_density hρ (expm_unitary ?_).1
    have harg : (-Complex.I * (detuning : ℂ) * (duration : ℂ))
        = -Complex.I * ((detuning * duration : ℝ) : ℂ) := by
      push_cast
      ring
    rw [harg]
    exact neg_I_smul_hermitian_skew (detuning * duration) SZ_conjTranspose
  · exact hρ

/-- C2. For every density matrix (Hermitian, trace one, positive semidefinite,
i.e. non-negative eigenvalues), every detuning, and every operation — a delay
or a shaped pulse with arbitrary parameters — the state produced by executing
the operation is again Hermitian with trace one and positive semidefinite,
because every slice either applies the unitary similarity transform
`U† · state · U` or leaves the state unchanged. -/
theorem C2_operation_preserves_density_matrix (randn : ℕ → ℕ → ℝ) (ambient : ℕ)
    (op : SequenceOp) (ρ ρ' : Mat2) (detuning : ℝ)
    (hρ : IsDensityMatrix ρ)
    (hrun : SequenceOp.run randn ambient op ρ detuning = .ok ρ') :
    IsDensityMatrix ρ' := by
  cases op with
  | delay d =>
      simp only [SequenceOp.run, Except.ok.injEq] at hrun
      rw [← hrun]
      exact evolve_free_precession_preserves hρ d detuning
  | shapedPulse p =>
      cases hg : get_pulse_shape randn ambient p with
      | error e =>
          simp [SequenceOp.run, ShapedPulse.execute, hg, Except.map, Except.bind] at hrun
      | ok pr =>
          simp only [SequenceOp.run, ShapedPulse.execute, hg, Except.bind, Except.map,
            pure, Except.pure, Except.ok.injEq] at hrun
          rw [← hrun]
          exact evolve_shaped_pulse_preserves hρ _ _ _ _ _

open ComplexOrder in
/-- Witness for C2: the pure state `|0⟩⟨0|` is a density matrix, a zero-length
delay at zero detuning returns it unchanged, and the theorem applies. -/
theorem C2_witness :
    IsDensityMatrix (!![1, 0; 0, 0] : Mat2) ∧
    SequenceOp.run (fun _ _ => 0) 0 (.delay 0) (!![1, 0; 0, 0] : Mat2) 0
      = .ok (!![1, 0; 0, 0] : Mat2) := by
  have hdm : IsDensityMatrix (!![1, 0; 0, 0] : Mat2) := by
    refine ⟨?_, ?_, ?_⟩
    · ext i j
      fin_cases i <;> fin_cases j <;> simp [Matrix.conjTranspose_apply]
    · simp [Matrix.trace_fin_two]
    · have hdiag : (!![1, 0; 0, 0] : Mat2) = Matrix.diagonal ![1, 0] := by
        ext i j
        fin_cases i <;> fin_cases j <;> simp [Matrix.diagonal]
      rw [hdiag]
      refine Matrix.posSemidef_diagonal_iff.mpr ?_
      intro i
      fin_cases i <;> norm_num
  have hrun : SequenceOp.run (fun _ _ => 0) 0 (.delay 0) (!![1, 0; 0, 0] : Mat2) 0
      = .ok (!![1, 0; 0, 0] : Mat2) := by
    simp only [SequenceOp.run, QuantumEvolution.evolve_free_precession]
    norm_num
  exact ⟨C2_operation_preserves_density_matrix (fun _ _ => 0) 0 (.delay 0) _ _ 0 hdm hrun, hrun⟩

-- =============================================================================
-- C8: PulseShape construction
-- =============================================================================

/-- C8 (amended). Constructing a `PulseShape` from four sequences succeeds if
and only if the amplitude, phase, and frequency sequences each have the same
length as the time axis — any common length, including 0 and 1, is accepted;
only mismatched lengths are a construction error — and a successful
construction stores exactly the four given arrays. -/
theorem C8_pulse_shape_construction (a p f t : List ℝ) :
    (mkPulseShape a p f t = .ok ⟨a, p, f, t⟩ ↔
      (a.length = t.length ∧ p.length = t.length ∧ f.length = t.length)) ∧
    (∀ s, mkPulseShape a p f t = .ok s → s = ⟨a, p, f, t⟩) := by
  simp only [mkPulseShape]
  constructor
  · split_ifs with h1 h2 h3 <;> simp_all
  · intro s hs
    split_ifs at hs <;> simp_all

/-- Counterexample to C8 as stated: a `PulseShape` with common length 1 is
constructed successfully, although the claim requires construction to fail
for any common length below 2. -/
theorem C8_counterexample :
    mkPulseShape [0] [0] [0] [0] = .ok ⟨[0], [0], [0], [0]⟩ ∧
    ¬ 2 ≤ ([(0 : ℝ)] : List ℝ).length := by
  constructor
  · rfl
  · norm_num

-- =============================================================================
-- C9: noisy shape determinism under a fixed seed
-- =============================================================================

/-- C9. For any sampler, duration, point count, base shape, noise levels, and
integer seed, the noisy generator gives identical `PulseShape` arrays no
matter what the ambient generator state is (two invocations with the same
explicit seed agree), and any successfully generated amplitude array is
clamped to non-negative values. -/
theorem C9_noisy_seed_determinism (randn : ℕ → ℕ → ℝ) (duration : ℝ) (n_points : ℕ)
    (base_shape : String) (amp_noise phase_noise freq_noise : ℝ) (s : ℕ)
    (ambient1 ambient2 : ℕ) :
    PulseShapeFactory.noisy randn duration n_points base_shape amp_noise phase_noise
        freq_noise (some s) ambient1 =
      PulseShapeFactory.noisy randn duration n_points base_shape amp_noise phase_noise
        freq_noise (some s) ambient2 ∧
    (∀ ps, PulseShapeFactory.noisy randn duration n_points base_shape amp_noise phase_noise
        freq_noise (some s) ambient1 = .ok ps → ∀ x ∈ ps.amplitude, 0 ≤ x) := by
  constructor
  · rfl
  · intro ps hps x hx
    simp only [PulseShapeFactory.noisy] at hps
    split at hps
    · exact absurd hps (by simp)
    · simp only [Except.ok.injEq] at hps
      rw [← hps] at hx
      simp only [List.mem_map] at hx
      obtain ⟨b, _, hb⟩ := hx
      rw [← hb]
      exact le_max_right b 0

/-- Witness for C9 at a concrete sampler, shape and seed, with two distinct
ambient states. -/
theorem C9_witness :
    PulseShapeFactory.noisy (fun _ _ => 0) 1 2 "gaussian" 0 0 0 (some 5) 0 =
      PulseShapeFactory.noisy (fun _ _ => 0) 1 2 "gaussian" 0 0 0 (some 5) 1 :=
  (C9_noisy_seed_determinism (fun _ _ => 0) 1 2 "gaussian" 0 0 0 5 0 1).1

-- =============================================================================
-- C10: executing a ShapedPulse does not mutate it
-- =============================================================================

/-- C10. Executing a `ShapedPulse` never mutates the operation: once the shape
cache is filled, `execute` returns the operation unchanged (same cached shape
and same parameters — a non-zero phase offset is applied on a fresh
`PulseShape`, never written to the cache); and after any first successful
`execute`, re-executing the returned operation on the same state and detuning
returns the identical result and operation. -/
theorem C10_execute_no_mutation (randn : ℕ → ℕ → ℝ) (ambient : ℕ) (p : ShapedPulse)
    (st : Mat2) (detuning : ℝ) :
    (∀ s, p.pulse_shape_cache = some s →
      ∃ r, ShapedPulse.execute randn ambient p st detuning = .ok (r, p)) ∧
    (∀ p' r, ShapedPulse.execute randn ambient p st detuning = .ok (r, p') →
      ShapedPulse.execute randn ambient p' st detuning = .ok (r, p')) := by
  constructor
  · intro s hs
    simp only [ShapedPulse.execute, get_pulse_shape, hs]
    exact ⟨_, rfl⟩
  · intro p' r h
    simp only [ShapedPulse.execute, get_pulse_shape] at h ⊢
    cases hc : p.pulse_shape_cache with
    | some s =>
        rw [hc] at h
        simp only [Except.ok.injEq, Prod.mk.injEq] at h
        obtain ⟨hr, hp⟩ := h
        rw [← hp, hc]
        simp [hr]
    | none =>
        rw [hc] at h
        cases hg : generate_pulse_shape randn ambient p.params with
        | error e => rw [hg] at h; exact absurd h (by simp)
        | ok g =>
            rw [hg] at h
            simp only [Except.ok.injEq, Prod.mk.injEq] at h
            obtain ⟨hr, hp⟩ := h
            rw [← hp]
            simp [hr]

/-- Witness for C10: a pulse with a pre-filled cache. -/
theorem C10_witness :
    ∃ r, ShapedPulse.execute (fun _ _ => 0) 0
      ⟨⟨1, 1, "gaussian", {}, 0, 100, 1, 0⟩, some ⟨[], [], [], []⟩⟩ 1 0 =
      .ok (r, ⟨⟨1, 1, "gaussian", {}, 0, 100, 1, 0⟩, some ⟨[], [], [], []⟩⟩) :=
  (C10_execute_no_mutation (fun _ _ => 0) 0 _ 1 0).1 ⟨[], [], [], []⟩ rfl

-- =============================================================================
-- C5: delay propagation
-- =============================================================================

/-- C5 (amended). Delay propagation returns `U† · ρ · U` with
`U = expm(-i·detuning·duration·SZ)` whenever `|detuning·duration| > 1e-12`,
and returns the state unchanged when `|detuning·duration| ≤ 1e-12`; in
particular when `detuning·duration = 0` the state is returned unchanged and
that agrees with `U† · ρ · U` exactly, because `U = 1`. -/
theorem C5_delay_free_precession (ρ : Mat2) (duration detuning : ℝ) :
    (1e-12 < |detuning * duration| →
      QuantumEvolution.evolve_free_precession ρ duration detuning =
        (expm ((-Complex.I * (detuning : ℂ) * (duration : ℂ)) • SZ))ᴴ * ρ *
          expm ((-Complex.I * (detuning : ℂ) * (duration : ℂ)) • SZ)) ∧
    (|detuning * duration| ≤ 1e-12 →
      QuantumEvolution.evolve_free_precession ρ duration detuning = ρ) ∧
    (detuning * duration = 0 →
      expm ((-Complex.I * (detuning : ℂ) * (duration : ℂ)) • SZ) = 1 ∧
      (expm ((-Complex.I * (detuning : ℂ) * (duration : ℂ)) • SZ))ᴴ * ρ *
          expm ((-Complex.I * (detuning : ℂ) * (duration : ℂ)) • SZ) = ρ) := by
  refine ⟨?_, ?_, ?_⟩
  · intro h
    simp only [QuantumEvolution.evolve_free_precession, if_pos h]
  · intro h
    simp only [QuantumEvolution.evolve_free_precession, if_neg (not_lt.mpr h)]
  · intro h
    have hzero : (-Complex.I * (detuning : ℂ) * (duration : ℂ)) • SZ = 0 := by
      have : ((detuning : ℂ) * (duration : ℂ)) = 0 := by
        push_cast
        exact_mod_cast congrArg (fun x : ℝ => (x : ℂ)) h
      rw [mul_assoc, this, mul_zero, zero_smul]
    have hone : expm ((-Complex.I * (detuning : ℂ) * (duration : ℂ)) • SZ) = 1 := by
      rw [hzero, expm, NormedSpace.exp_zero]
    refine ⟨hone, ?_⟩
    rw [hone]
    simp

/-- Witness for C5 at concrete inputs covering both regimes. -/
theorem C5_witness :
    QuantumEvolution.evolve_free_precession (!![1, 0; 0, 0] : Mat2) 0 0 = !![1, 0; 0, 0] ∧
    QuantumEvolution.evolve_free_precession (!![1, 0; 0, 0] : Mat2) 1 1 =
      (expm ((-Complex.I * ((1 : ℝ) : ℂ) * ((1 : ℝ) : ℂ)) • SZ))ᴴ * !![1, 0; 0, 0] *
        expm ((-Complex.I * ((1 : ℝ) : ℂ) * ((1 : ℝ) : ℂ)) • SZ) :=
  ⟨(C5_delay_free_precession !![1, 0; 0, 0] 0 0).2.1 (by norm_num),
   (C5_delay_free_precession !![1, 0; 0, 0] 1 1).1 (by norm_num)⟩

/-- Counterexample to C5 as stated: at `detuning = 1e-13`, `duration = 1`
(inside the `1e-12` dead zone but with `detuning·duration ≠ 0`), the code
returns the state unchanged, which differs from `U† · ρ · U` in exact
arithmetic. -/
theorem C5_counterexample :
    QuantumEvolution.evolve_free_precession (!![1/2, 1/2; 1/2, 1/2] : Mat2) 1 1e-13 =
      !![1/2, 1/2; 1/2, 1/2] ∧
    (expm ((-Complex.I * ((1e-13 : ℝ) : ℂ) * ((1 : ℝ) : ℂ)) • SZ))ᴴ *
        (!![1/2, 1/2; 1/2, 1/2] : Mat2) *
        expm ((-Complex.I * ((1e-13 : ℝ) : ℂ) * ((1 : ℝ) : ℂ)) • SZ) ≠
      !![1/2, 1/2; 1/2, 1/2] := by
  constructor
  · simp only [QuantumEvolution.evolve_free_precession]
    split
    · next h => exfalso; rw [abs_of_pos (by norm_num)] at h; norm_num at h
    · rfl
  · have hw : ((-Complex.I * ((1e-13 : ℝ) : ℂ) * ((1 : ℝ) : ℂ)) • SZ)
        = Matrix.diagonal ![((-(1e-13 / 2) : ℝ) : ℂ) * Complex.I,
            (((1e-13 / 2) : ℝ) : ℂ) * Complex.I] := by
      ext i j
      fin_cases i <;> fin_cases j <;>
        simp [SZ, Matrix.diagonal] <;> push_cast <;> ring
    have hU : expm ((-Complex.I * ((1e-13 : ℝ) : ℂ) * ((1 : ℝ) : ℂ)) • SZ)
        = Matrix.diagonal ![Complex.exp (((-(1e-13 / 2) : ℝ) : ℂ) * Complex.I),
            Complex.exp ((((1e-13 / 2) : ℝ) : ℂ) * Complex.I)] := by
      have hexpv : NormedSpace.exp ℂ
          (![((-(1e-13 / 2) : ℝ) : ℂ) * Complex.I, (((1e-13 / 2) : ℝ) : ℂ) * Complex.I])
          = ![Complex.exp (((-(1e-13 / 2) : ℝ) : ℂ) * Complex.I),
              Complex.exp ((((1e-13 / 2) : ℝ) : ℂ) * Complex.I)] := by
        funext i
        rw [Pi.coe_exp, ← Complex.exp_eq_exp_ℂ]
        fin_cases i <;> simp
      rw [hw, expm, Matrix.exp_diagonal, hexpv]
    intro heq
    have h01 := congrFun (congrFun heq 0) 1
    rw [hU] at h01
    rw [Matrix.diagonal_conjTranspose] at h01
    rw [Matrix.mul_diagonal, Matrix.diagonal_mul] at h01
    simp only [Pi.star_apply, Matrix.cons_val_zero, Matrix.cons_val_one,
      Matrix.head_cons] at h01
    have hentry : (!![1/2, 1/2; 1/2, 1/2] : Mat2) 0 1 = 1/2 := by norm_num
    rw [hentry] at h01
    have hstar : star (Complex.exp (((-(1e-13 / 2) : ℝ) : ℂ) * Complex.I))
        = Complex.exp ((((1e-13 / 2) : ℝ) : ℂ) * Complex.I) := by
      rw [Complex.star_def, ← Complex.exp_conj]
      congr 1
      rw [RingHom.map_mul, Complex.conj_I, Complex.conj_ofReal]
      push_cast
      ring
    rw [hstar] at h01
    have hsplit : (((1e-13 : ℝ)) : ℂ) * Complex.I
        = (((1e-13 / 2 : ℝ)) : ℂ) * Complex.I + (((1e-13 / 2 : ℝ)) : ℂ) * Complex.I := by
      push_cast
      ring
    have h2 : (1/2 : ℂ) * Complex.exp (((1e-13 : ℝ) : ℂ) * Complex.I) = 1/2 := by
      calc (1/2 : ℂ) * Complex.exp (((1e-13 : ℝ) : ℂ) * Complex.I)
          = Complex.exp ((((1e-13 / 2) : ℝ) : ℂ) * Complex.I) * (1/2) *
            Complex.exp ((((1e-13 / 2) : ℝ) : ℂ) * Complex.I) := by
            rw [hsplit, Complex.exp_add]
            ring
        _ = 1/2 := h01
    have hexp1 : Complex.exp (((1e-13 : ℝ) : ℂ) * Complex.I) = 1 :=
      mul_left_cancel₀ (by norm_num : (1/2 : ℂ) ≠ 0)
        (h2.trans (mul_one (1/2 : ℂ)).symm)
    have him := congrArg Complex.im hexp1
    rw [Complex.exp_ofReal_mul_I_im, Complex.one_im] at him
    have hsinpos : 0 < Real.sin 1e-13 := by
      apply Real.sin_pos_of_pos_of_lt_pi
      · norm_num
      · linarith [Real.pi_gt_three]
    rw [him] at hsinpos
    simp at hsinpos

-- =============================================================================
-- C4: amplitude scaling by the flip angle
-- =============================================================================

lemma trapezoid_eq_zero (ys xs : List ℝ) (h : ∀ y ∈ ys, y = 0) : trapezoid ys xs = 0 := by
  induction ys, xs using trapezoid.induct with
  | case1 y1 y2 ys x1 x2 xs ih =>
      have h1 : y1 = 0 := h _ (by simp)
      have h2 : y2 = 0 := h _ (by simp)
      have hrest : ∀ y ∈ y2 :: ys, y = 0 := fun y hy => h y (List.mem_cons_of_mem _ hy)
      rw [trapezoid, ih hrest, h1, h2]
      ring
  | case2 ys xs h1 =>
      rw [trapezoid.eq_def]
      split
      · next y1 y2 ys' x1 x2 xs' => exact (h1 y1 y2 ys' x1 x2 xs' rfl rfl).elim
      · rfl

lemma calculate_amplitude_scaling_of_le {a t : List ℝ} (f : ℝ)
    (h : trapezoid a t ≤ 1e-12) :
    QuantumEvolution.calculate_amplitude_scaling a t f = 0 := by
  simp only [QuantumEvolution.calculate_amplitude_scaling]
  rw [if_neg (not_lt.mpr h)]

lemma evolve_single_slice_scale_zero (st : Mat2) (ps ps' : PulseShape) (i : ℕ)
    (dt detuning a b : ℝ) (hphase : ps'.phase = ps.phase)
    (hfreq : ps'.frequency = ps.frequency) :
    QuantumEvolution.evolve_single_slice st ps i dt 0 detuning a b =
      QuantumEvolution.evolve_single_slice st ps' i dt 0 detuning a b := by
  simp only [QuantumEvolution.evolve_single_slice, hphase, hfreq, mul_zero]

/-- C4. The amplitude envelope used in slicing is the stored envelope times
the single scalar `flip_angle / ∫amplitude dt` (trapezoid rule); when the
integral is at or below the `1e-12` threshold the scaling factor is `0`, so
the pulse evolves exactly like a zero-amplitude pulse instead of failing. -/
theorem C4_amplitude_scaling (amplitude time_axis : List ℝ) (flip_angle : ℝ)
    (ps : PulseShape) (st : Mat2) (detuning sx_amp sy_amp : ℝ) :
    (1e-12 < trapezoid amplitude time_axis →
      QuantumEvolution.calculate_amplitude_scaling amplitude time_axis flip_angle =
        flip_angle / trapezoid amplitude time_axis) ∧
    (trapezoid amplitude time_axis ≤ 1e-12 →
      QuantumEvolution.calculate_amplitude_scaling amplitude time_axis flip_angle = 0) ∧
    (trapezoid ps.amplitude ps.time_axis ≤ 1e-12 →
      QuantumEvolution.evolve_shaped_pulse st ps flip_angle detuning sx_amp sy_amp =
        QuantumEvolution.evolve_shaped_pulse st
          { ps with amplitude := ps.amplitude.map (fun _ => 0) }
          flip_angle detuning sx_amp sy_amp) := by
  refine ⟨?_, ?_, ?_⟩
  · intro h
    simp only [QuantumEvolution.calculate_amplitude_scaling]
    rw [if_pos h]
  · exact calculate_amplitude_scaling_of_le flip_angle
  · intro h3
    have hzeros : ∀ y ∈ ps.amplitude.map (fun _ => (0 : ℝ)), y = 0 := by simp
    have hL : QuantumEvolution.calculate_amplitude_scaling ps.amplitude ps.time_axis
        flip_angle = 0 := calculate_amplitude_scaling_of_le flip_angle h3
    have hR : QuantumEvolution.calculate_amplitude_scaling
        (ps.amplitude.map (fun _ => 0)) ps.time_axis flip_angle = 0 :=
      calculate_amplitude_scaling_of_le flip_angle
        (by rw [trapezoid_eq_zero _ _ hzeros]; norm_num)
    simp only [QuantumEvolution.evolve_shaped_pulse, hL, hR]
    split
    · rfl
    · exact List.foldl_ext _ _ st
        (fun a i _ => evolve_single_slice_scale_zero a ps
          { ps with amplitude := ps.amplitude.map (fun _ => 0) } i _ detuning _ _ rfl rfl)

/-- Witness for C4: a positive-integral envelope and the empty envelope. -/
theorem C4_scaling_witness :
    QuantumEvolution.calculate_amplitude_scaling [2, 2] [0, 1] 1 =
      1 / trapezoid [2, 2] [0, 1] ∧
    QuantumEvolution.calculate_amplitude_scaling [] [] 1 = 0 ∧
    QuantumEvolution.evolve_shaped_pulse 0 ⟨[], [], [], []⟩ 1 0 1 0 =
      QuantumEvolution.evolve_shaped_pulse 0
        { (⟨[], [], [], []⟩ : PulseShape) with
            amplitude := List.map (fun _ => 0) ([] : List ℝ) } 1 0 1 0 :=
  ⟨(C4_amplitude_scaling [2, 2] [0, 1] 1 ⟨[], [], [], []⟩ 0 0 1 0).1
      (by norm_num [trapezoid]),
   (C4_amplitude_scaling [] [] 1 ⟨[], [], [], []⟩ 0 0 1 0).2.1
      (by norm_num [trapezoid]),
   (C4_amplitude_scaling [] [] 1 ⟨[], [], [], []⟩ 0 0 1 0).2.2
      (by norm_num [trapezoid])⟩

-- =============================================================================
-- C6: WURST shape
-- =============================================================================

lemma linspace_length (a b : ℝ) (n : ℕ) : (linspace a b n).length = n := by
  rw [linspace, List.length_map, List.length_range]

lemma cumsum_length (l : List ℝ) : (cumsum l).length = l.length := by
  induction l with
  | nil => rfl
  | cons x xs ih => simp [cumsum, ih]

lemma getD_map_lt {α β : Type*} (f : α → β) (l : List α) (k : ℕ) (h : k < l.length)
    (d : β) (d' : α) : (l.map f).getD k d = f (l.getD k d') := by
  rw [List.getD_eq_getElem?_getD, List.getElem?_map, List.getD_eq_getElem?_getD,
    List.getElem?_eq_getElem h]
  simp

lemma cumsum_getD (l : List ℝ) : ∀ k, k < l.length → (cumsum l).getD k 0 = (l.take (k + 1)).sum := by
  induction l with
  | nil => intro k hk; simp at hk
  | cons x xs ih =>
      intro k hk
      cases k with
      | zero => simp [cumsum]
      | succ k =>
          simp only [cumsum, List.getD_cons_succ]
          rw [getD_map_lt _ _ _ (by rw [cumsum_length]; exact Nat.lt_of_succ_lt_succ hk) 0 0]
          rw [ih k (Nat.lt_of_succ_lt_succ hk)]
          rw [List.take_succ_cons, List.sum_cons]

/-- C6 (amended). For duration > 0 and at least two samples, the WURST shape
has amplitude `max(amplitude_factor·(1−|2t/duration−1|^wurst_n), 0)` at every
time-axis sample `t` (the clamp is applied after the factor, which agrees
with the claimed `amplitude_factor · max(0, ·)` exactly when
`amplitude_factor ≥ 0`), frequency the linear sweep from `freq_start` to
`freq_end`, and phase the discrete cumulative sum of the frequency array times
the sample spacing times `2π`. -/
theorem C6_wurst_shape (duration : ℝ) (hdur : 0 < duration) (n : ℕ) (hn : 2 ≤ n)
    (freq_start freq_end : ℝ) (wurst_n : ℕ) (amplitude_factor : ℝ) :
    (∀ k, k < n →
      (PulseShapeFactory.wurst duration n freq_start freq_end wurst_n
          amplitude_factor).amplitude.getD k 0 =
        max (amplitude_factor * (1 - |2 * ((PulseShapeFactory.wurst duration n freq_start
          freq_end wurst_n amplitude_factor).time_axis.getD k 0) / duration - 1| ^ wurst_n)) 0) ∧
    (0 ≤ amplitude_factor → ∀ k, k < n →
      (PulseShapeFactory.wurst duration n freq_start freq_end wurst_n
          amplitude_factor).amplitude.getD k 0 =
        amplitude_factor * max 0 (1 - |2 * ((PulseShapeFactory.wurst duration n freq_start
          freq_end wurst_n amplitude_factor).time_axis.getD k 0) / duration - 1| ^ wurst_n)) ∧
    (PulseShapeFactory.wurst duration n freq_start freq_end wurst_n
        amplitude_factor).frequency = linspace freq_start freq_end n ∧
    (∀ k, k < n →
      (PulseShapeFactory.wurst duration n freq_start freq_end wurst_n
          amplitude_factor).phase.getD k 0 =
        ((linspace freq_start freq_end n).take (k + 1)).sum *
          (duration / ((n : ℝ) - 1)) * (2 * Real.pi)) := by
  have hamp : ∀ k, k < n →
      (PulseShapeFactory.wurst duration n freq_start freq_end wurst_n
          amplitude_factor).amplitude.getD k 0 =
        max (amplitude_factor * (1 - |2 * ((PulseShapeFactory.wurst duration n freq_start
          freq_end wurst_n amplitude_factor).time_axis.getD k 0) / duration - 1| ^ wurst_n)) 0 := by
    intro k hk
    simp only [PulseShapeFactory.wurst]
    rw [getD_map_lt _ _ _ (by rw [linspace_length]; exact hk) 0 0]
  refine ⟨hamp, ?_, rfl, ?_⟩
  · intro hfac k hk
    rw [hamp k hk, mul_max_of_nonneg _ _ hfac, mul_zero, max_comm]
  · intro k hk
    simp only [PulseShapeFactory.wurst]
    rw [if_pos (by omega : 1 < n)]
    rw [getD_map_lt _ _ _ (by rw [cumsum_length, linspace_length]; exact hk) 0 0]
    rw [cumsum_getD _ k (by rw [linspace_length]; exact hk)]

/-- Witness for C6 at a concrete shape. -/
theorem C6_wurst_witness :
    (PulseShapeFactory.wurst 1 2 0 1 40 1).frequency = linspace 0 1 2 ∧
    (PulseShapeFactory.wurst 1 2 0 1 40 1).amplitude.getD 0 0 =
      max ((1 : ℝ) * (1 - |2 * ((PulseShapeFactory.wurst 1 2 0 1 40
        1).time_axis.getD 0 0) / 1 - 1| ^ 40)) 0 :=
  ⟨(C6_wurst_shape 1 (by norm_num) 2 (le_refl 2) 0 1 40 1).2.2.1,
   (C6_wurst_shape 1 (by norm_num) 2 (le_refl 2) 0 1 40 1).1 0 (by norm_num)⟩

/-- Counterexample to C6 as stated: with `amplitude_factor = -1` the stored
amplitude at the midpoint sample is `0` (clamp applied after the factor),
whereas the claimed formula `amplitude_factor · max(0, ·)` gives `-1`. -/
theorem C6_counterexample :
    (PulseShapeFactory.wurst 1 3 0 0 40 (-1)).amplitude.getD 1 0 = 0 ∧
    (-1 : ℝ) * max 0 (1 - |2 * ((PulseShapeFactory.wurst 1 3 0 0 40
        (-1)).time_axis.getD 1 0) / 1 - 1| ^ 40) = -1 := by
  have htime : (PulseShapeFactory.wurst 1 3 0 0 40 (-1)).time_axis.getD 1 0 = 1 / 2 := by
    simp only [PulseShapeFactory.wurst, linspace]
    norm_num [List.range_succ]
  constructor
  · have h : (PulseShapeFactory.wurst 1 3 0 0 40 (-1)).amplitude.getD 1 0 =
        max ((-1 : ℝ) * (1 - |2 * ((PulseShapeFactory.wurst 1 3 0 0 40
          (-1)).time_axis.getD 1 0) / 1 - 1| ^ 40)) 0 := by
      simp only [PulseShapeFactory.wurst]
      rw [getD_map_lt _ _ _ (by rw [linspace_length]; norm_num) 0 0]
    rw [h, htime]
    norm_num
  · rw [htime]
    norm_num

-- =============================================================================
-- C3: detection
-- =============================================================================

lemma detectStates_length (U : Mat2) : ∀ (n : ℕ) (ρ : Mat2),
    (ShapedPulseSequence.detectStates U n ρ).length = n := by
  intro n
  induction n with
  | zero => intro ρ; rfl
  | succ n ih => intro ρ; simp [ShapedPulseSequence.detectStates, ih]

lemma detectStates_getD (U : Mat2) : ∀ (n : ℕ) (ρ : Mat2) (t : ℕ), t < n →
    (ShapedPulseSequence.detectStates U n ρ).getD t 0 =
      (fun s => Uᴴ * s * U)^[t] ρ := by
  intro n
  induction n with
  | zero => intro ρ t ht; exact absurd ht (Nat.not_lt_zero t)
  | succ n ih =>
      intro ρ t ht
      cases t with
      | zero => rfl
      | succ t =>
          simp only [ShapedPulseSequence.detectStates, List.getD_cons_succ]
          rw [ih _ t (Nat.lt_of_succ_lt_succ ht), Function.iterate_succ_apply]

/-- C3. With valid requested observables, detection produces one array per
observable of exactly `points` samples; sample `t` is the observable measured
on the state after `t` applications of the free-evolution step
`expm(-i·detuning·SZ·dt)` (measurement happens before the step, so sample 0
is measured on the terminal state itself); `sx`, `sy`, `sz` are the real part
of `trace(state · S)` (so their imaginary part is zero — they are stored in
real-typed arrays), while `s+`/`s-` are the complex traces of
`state · (SX ± i·SY)`. -/
theorem C3_detection_signals (dp : DetectionParameters) (ρ : Mat2) (detuning : ℝ)
    (hvalid : ∀ a ∈ dp.detect_axes, ShapedPulseSequence.validObs a) :
    ∃ g, ShapedPulseSequence.detect_signals dp ρ detuning = .ok g ∧
      (∀ obs, (g obs).length = dp.points) ∧
      (∀ obs t, t < dp.points → (g obs).getD t 0 =
        ShapedPulseSequence.measureValue
          ((fun s => (expm ((-Complex.I * (detuning : ℂ) * (dp.dt : ℂ)) • SZ))ᴴ * s *
            expm ((-Complex.I * (detuning : ℂ) * (dp.dt : ℂ)) • SZ))^[t] ρ) obs) ∧
      (∀ s : Mat2,
        ShapedPulseSequence.measureValue s "sx" = ((((s * SX).trace).re : ℝ) : ℂ) ∧
        ShapedPulseSequence.measureValue s "sy" = ((((s * SY).trace).re : ℝ) : ℂ) ∧
        ShapedPulseSequence.measureValue s "sz" = ((((s * SZ).trace).re : ℝ) : ℂ) ∧
        ShapedPulseSequence.measureValue s "s+" = (s * (SX + Complex.I • SY)).trace ∧
        ShapedPulseSequence.measureValue s "s-" = (s * (SX - Complex.I • SY)).trace ∧
        (ShapedPulseSequence.measureValue s "sx").im = 0 ∧
        (ShapedPulseSequence.measureValue s "sy").im = 0 ∧
        (ShapedPulseSequence.measureValue s "sz").im = 0) := by
  have hfind : dp.detect_axes.find? (fun a => ¬ ShapedPulseSequence.validObs a) = none := by
    rw [List.find?_eq_none]
    intro x hx
    simp [hvalid x hx]
  refine ⟨fun obs => (ShapedPulseSequence.detectStates
      (expm ((-Complex.I * (detuning : ℂ) * (dp.dt : ℂ)) • SZ)) dp.points ρ).map
      (fun s => ShapedPulseSequence.measureValue s obs), ?_, ?_, ?_, ?_⟩
  · simp only [ShapedPulseSequence.detect_signals, hfind]
  · intro obs
    rw [List.length_map, detectStates_length]
  · intro obs t ht
    rw [getD_map_lt _ _ _ (by rw [detectStates_length]; exact ht) 0 0]
    rw [detectStates_getD _ _ _ t ht]
  · intro s
    refine ⟨rfl, rfl, rfl, rfl, rfl, ?_, ?_, ?_⟩ <;>
      simp [ShapedPulseSequence.measureValue]

/-- Witness for C3 at a concrete detection configuration. -/
theorem C3_witness :
    ∃ g, ShapedPulseSequence.detect_signals ⟨1, 0, ["sx"]⟩ (0 : Mat2) 0 = .ok g ∧
      (∀ obs, (g obs).length = (0 : ℕ)) ∧
      (∀ obs t, t < (0 : ℕ) → (g obs).getD t 0 =
        ShapedPulseSequence.measureValue
          ((fun s => (expm ((-Complex.I * ((0 : ℝ) : ℂ) * ((1 : ℝ) : ℂ)) • SZ))ᴴ * s *
            expm ((-Complex.I * ((0 : ℝ) : ℂ) * ((1 : ℝ) : ℂ)) • SZ))^[t] (0 : Mat2)) obs) ∧
      (∀ s : Mat2,
        ShapedPulseSequence.measureValue s "sx" = ((((s * SX).trace).re : ℝ) : ℂ) ∧
        ShapedPulseSequence.measureValue s "sy" = ((((s * SY).trace).re : ℝ) : ℂ) ∧
        ShapedPulseSequence.measureValue s "sz" = ((((s * SZ).trace).re : ℝ) : ℂ) ∧
        ShapedPulseSequence.measureValue s "s+" = (s * (SX + Complex.I • SY)).trace ∧
        ShapedPulseSequence.measureValue s "s-" = (s * (SX - Complex.I • SY)).trace ∧
        (ShapedPulseSequence.measureValue s "sx").im = 0 ∧
        (ShapedPulseSequence.measureValue s "sy").im = 0 ∧
        (ShapedPulseSequence.measureValue s "sz").im = 0) :=
  C3_detection_signals ⟨1, 0, ["sx"]⟩ 0 0
    (by intro a ha; simp only [List.mem_singleton] at ha; subst ha; decide)

-- =============================================================================
-- C7: simulating requires detection parameters
-- =============================================================================

lemma chirp_error_ne_detectionNotSet (duration : ℝ) (n : ℕ) (fs fe : ℝ)
    (envelope : String) (sf bt : ℝ) :
    PulseShapeFactory.chirp duration n fs fe envelope sf bt ≠
      .error .detectionNotSet := by
  simp only [PulseShapeFactory.chirp]
  split_ifs <;> simp

lemma noisy_error_ne_detectionNotSet (randn : ℕ → ℕ → ℝ) (duration : ℝ) (n : ℕ)
    (base : String) (an pn fn : ℝ) (seed : Option ℕ) (ambient : ℕ) :
    PulseShapeFactory.noisy randn duration n base an pn fn seed ambient ≠
      .error .detectionNotSet := by
  simp only [PulseShapeFactory.noisy]
  split_ifs <;> simp

lemma generate_pulse_shape_ne_detectionNotSet (randn : ℕ → ℕ → ℝ) (ambient : ℕ)
    (p : PulseParameters) :
    generate_pulse_shape randn ambient p ≠ .error .detectionNotSet := by
  simp only [generate_pulse_shape]
  split_ifs
  · simp
  · simp
  · simp
  · simp
  · exact chirp_error_ne_detectionNotSet _ _ _ _ _ _ _
  · exact noisy_error_ne_detectionNotSet _ _ _ _ _ _ _ _ _
  · simp

lemma run_ne_detectionNotSet (randn : ℕ → ℕ → ℝ) (ambient : ℕ) (op : SequenceOp)
    (st : Mat2) (detuning : ℝ) :
    SequenceOp.run randn ambient op st detuning ≠ .error .detectionNotSet := by
  cases op with
  | delay d => simp [SequenceOp.run]
  | shapedPulse p =>
      simp only [SequenceOp.run, ShapedPulse.execute, get_pulse_shape]
      cases hc : p.pulse_shape_cache with
      | some s => simp
      | none =>
          cases hg : generate_pulse_shape randn ambient p.params with
          | error e =>
              have hne := generate_pulse_shape_ne_detectionNotSet randn ambient p.params
              rw [hg] at hne
              simp only []
              intro hcontra
              apply hne
              simp only [Except.error.injEq] at hcontra ⊢
              exact hcontra
          | ok g => simp

lemma runOperations_ne_detectionNotSet (randn : ℕ → ℕ → ℝ) (ambient : ℕ)
    (detuning : ℝ) : ∀ (ops : List SequenceOp) (st : Mat2),
    ShapedPulseSequence.runOperations randn ambient ops st detuning ≠
      .error .detectionNotSet := by
  intro ops
  induction ops with
  | nil => intro st; simp [ShapedPulseSequence.runOperations]
  | cons op ops ih =>
      intro st
      simp only [ShapedPulseSequence.runOperations]
      cases hr : SequenceOp.run randn ambient op st detuning with
      | error e =>
          have hne := run_ne_detectionNotSet randn ambient op st detuning
          rw [hr] at hne
          intro hcontra
          apply hne
          simp only [Except.error.injEq] at hcontra ⊢
          exact hcontra
      | ok st' => exact ih st'

/-- C7. A sequence whose detection parameters are unset fails with the
detection configuration error — for every operation list and every initial
state, so the failure precedes any operation's execution — while a sequence
whose detection parameters are set never raises this error on the same
operation list (any error it does raise is a different configuration error
from shape generation or an unknown observable). -/
theorem C7_detection_gating (randn : ℕ → ℕ → ℝ) (ambient : ℕ)
    (seq : ShapedPulseSequence) (detuning : ℝ) (init : Option Mat2) :
    (seq.detection_params = none →
      ShapedPulseSequence.simulate_single_detuning randn ambient seq detuning init =
        .error .detectionNotSet) ∧
    (∀ dp, seq.detection_params = some dp →
      ShapedPulseSequence.simulate_single_detuning randn ambient seq detuning init ≠
        .error .detectionNotSet) := by
  constructor
  · intro h
    simp only [ShapedPulseSequence.simulate_single_detuning, h]
  · intro dp hdp
    simp only [ShapedPulseSequence.simulate_single_detuning, hdp]
    cases hr : ShapedPulseSequence.runOperations randn ambient seq.operations
        (init.getD SZ) detuning with
    | error e =>
        have hne := runOperations_ne_detectionNotSet randn ambient detuning
          seq.operations (init.getD SZ)
        rw [hr] at hne
        intro hcontra
        apply hne
        simp only [Except.error.injEq] at hcontra ⊢
        exact hcontra
    | ok final =>
        simp only [ShapedPulseSequence.detect_signals]
        split <;> simp

/-- Witness for C7: an empty sequence without and with detection parameters. -/
theorem C7_witness :
    ShapedPulseSequence.simulate_single_detuning (fun _ _ => 0) 0
        ⟨"s", [], none⟩ 0 none = .error .detectionNotSet ∧
    ShapedPulseSequence.simulate_single_detuning (fun _ _ => 0) 0
        ⟨"s", [], some ⟨1, 0, ["sx"]⟩⟩ 0 none ≠ .error .detectionNotSet :=
  ⟨(C7_detection_gating (fun _ _ => 0) 0 ⟨"s", [], none⟩ 0 none).1 rfl,
   (C7_detection_gating (fun _ _ => 0) 0 ⟨"s", [], some ⟨1, 0, ["sx"]⟩⟩ 0 none).2
     ⟨1, 0, ["sx"]⟩ rfl⟩

-- =============================================================================
-- C1: ensemble weights and weighted aggregation
-- =============================================================================

lemma simulateAll_ok (randn : ℕ → ℕ → ℝ) (ambient : ℕ) (seq : ShapedPulseSequence)
    (f : ℝ → String → List ℂ)
    (hf : ∀ δ, ShapedPulseSequence.simulate_single_detuning randn ambient seq δ none
      = .ok (f δ)) :
    ∀ values : List ℝ,
      ShapedSpinEchoSimulator.simulateAll randn ambient seq values = .ok (values.map f) := by
  intro values
  induction values with
  | nil => rfl
  | cons v vs ih =>
      simp only [ShapedSpinEchoSimulator.simulateAll, hf v, ih, List.map_cons]

lemma normalized_weights (l : List ℝ) (hpos : ∀ x ∈ l, 0 < x) (hne : l ≠ []) :
    (∀ w ∈ l.map (fun w => w / l.sum), 0 ≤ w) ∧ (l.map (fun w => w / l.sum)).sum = 1 := by
  have hsum : 0 < l.sum := List.sum_pos l hpos hne
  constructor
  · intro w hw
    simp only [List.mem_map] at hw
    obtain ⟨x, hx, rfl⟩ := hw
    exact div_nonneg (le_of_lt (hpos x hx)) (le_of_lt hsum)
  · have hdiv : (l.map (fun w => w / l.sum)).sum = l.sum / l.sum := by
      simp only [div_eq_mul_inv]
      rw [List.sum_map_mul_right, List.map_id']
    rw [hdiv, div_self (ne_of_gt hsum)]

lemma zip_mul_comm_sum : ∀ (sigs : List (List ℂ)) (ws : List ℝ) (t : ℕ),
    (((sigs.map (fun row => row.getD t 0)).zip ws).map (fun p => p.1 * (p.2 : ℂ))).sum =
      ((ws.zip sigs).map (fun p => (p.1 : ℂ) * p.2.getD t 0)).sum := by
  intro sigs
  induction sigs with
  | nil => intro ws t; cases ws <;> simp
  | cons s sigs ih =>
      intro ws t
      cases ws with
      | nil => simp
      | cons w ws =>
          simp only [List.map_cons, List.zip_cons_cons, List.sum_cons, ih]
          ring

/-- The numpy transpose/broadcast/sum aggregation coincides with the spec's
`Σ weight_i × signal_i`, component by component. -/
lemma aggregateObs_eq_specWeightedSum (ws : List ℝ) (sigs : List (List ℂ)) (P : ℕ) :
    ShapedSpinEchoSimulator.aggregateObs ws sigs P = specWeightedSum ws sigs P := by
  unfold ShapedSpinEchoSimulator.aggregateObs specWeightedSum
  refine List.map_congr_left fun t _ => ?_
  exact zip_mul_comm_sum sigs ws t

lemma aggregateObs_length (ws : List ℝ) (sigs : List (List ℂ)) (P : ℕ) :
    (ShapedSpinEchoSimulator.aggregateObs ws sigs P).length = P := by
  rw [ShapedSpinEchoSimulator.aggregateObs, List.length_map, List.length_range]

/-- C1. For every simulatable sequence (detection parameters set), detuning
range, point count `n ≥ 1`, linewidth, and known distribution family, the
ensemble simulator computes non-negative normalized weights summing to `1`
from the line-shape function, and returns, for each requested observable,
exactly the weighted sum `Σ_i weight_i × signal_i` of the per-detuning signal
arrays, one array per requested observable, each of length equal to the
requested detection point count. -/
theorem C1_ensemble_weighted_average (randn : ℕ → ℕ → ℝ) (ambient : ℕ)
    (seq : ShapedPulseSequence) (dp : DetectionParameters)
    (hdp : seq.detection_params = some dp)
    (detuning_range : ℝ × ℝ) (n : ℕ) (hn : 1 ≤ n) (linewidth : ℝ) (dist : String)
    (hdist : dist = "gaussian" ∨ dist = "lorentzian" ∨ dist = "uniform")
    (f : ℝ → String → List ℂ)
    (hf : ∀ δ, ShapedPulseSequence.simulate_single_detuning randn ambient seq δ none
      = .ok (f δ)) :
    ∃ values weights,
      ShapedSpinEchoSimulator.generate_detuning_distribution detuning_range n linewidth dist
        = .ok (values, weights) ∧
      (∀ w ∈ weights, 0 ≤ w) ∧ weights.sum = 1 ∧
      ShapedSpinEchoSimulator.simulate_sequence randn ambient seq detuning_range n
          linewidth dist =
        .ok (ShapedSpinEchoSimulator.aggregate_results (values.map f) weights
          dp.detect_axes dp.points) ∧
      (∀ obs ∈ dp.detect_axes,
        ShapedSpinEchoSimulator.aggregate_results (values.map f) weights
            dp.detect_axes dp.points obs =
          specWeightedSum weights (values.map (fun δ => f δ obs)) dp.points ∧
        (ShapedSpinEchoSimulator.aggregate_results (values.map f) weights
            dp.detect_axes dp.points obs).length = dp.points) := by
  have hkey : ∃ rawfun : ℝ → ℝ, (∀ x : ℝ, 0 < rawfun x) ∧
      ShapedSpinEchoSimulator.generate_detuning_distribution detuning_range n linewidth dist
        = .ok (linspace detuning_range.1 detuning_range.2 n,
            ((linspace detuning_range.1 detuning_range.2 n).map rawfun).map
              (fun w => w / ((linspace detuning_range.1 detuning_range.2 n).map rawfun).sum)) := by
    rcases hdist with h | h | h <;> subst h
    · exact ⟨fun d => Real.exp (-(d / linewidth) ^ 2), fun x => Real.exp_pos _, rfl⟩
    · refine ⟨fun d => 1 / (1 + (d / linewidth) ^ 2), fun x => by positivity, rfl⟩
    · exact ⟨fun _ => 1, fun x => one_pos, rfl⟩
  obtain ⟨rawfun, hrawpos, hgen⟩ := hkey
  have hvne : linspace detuning_range.1 detuning_range.2 n ≠ [] := by
    intro hcon
    have hlen := linspace_length detuning_range.1 detuning_range.2 n
    rw [hcon] at hlen
    simp at hlen
    omega
  have hrawne : (linspace detuning_range.1 detuning_range.2 n).map rawfun ≠ [] := by
    simp only [ne_eq, List.map_eq_nil_iff]
    exact hvne
  have hpos : ∀ x ∈ (linspace detuning_range.1 detuning_range.2 n).map rawfun, 0 < x := by
    intro x hx
    simp only [List.mem_map] at hx
    obtain ⟨d, _, rfl⟩ := hx
    exact hrawpos d
  obtain ⟨hnn, hsum⟩ := normalized_weights _ hpos hrawne
  have hsimAll := simulateAll_ok randn ambient seq f hf
    (linspace detuning_range.1 detuning_range.2 n)
  refine ⟨_, _, hgen, hnn, hsum, ?_, ?_⟩
  · simp only [ShapedSpinEchoSimulator.simulate_sequence, hgen, hsimAll, hdp]
  · intro obs hobs
    have hmaps : (List.map f (linspace detuning_range.1 detuning_range.2 n)).map
        (fun r => r obs) = (linspace detuning_range.1 detuning_range.2 n).map
        (fun δ => f δ obs) := by
      rw [List.map_map]
      rfl
    constructor
    · simp only [ShapedSpinEchoSimulator.aggregate_results, if_pos hobs, hmaps]
      exact aggregateObs_eq_specWeightedSum _ _ _
    · simp only [ShapedSpinEchoSimulator.aggregate_results, if_pos hobs]
      exact aggregateObs_length _ _ _

/-- Witness for C1: an empty sequence with detection set, one uniform
detuning sample. -/
theorem C1_witness :
    ∃ values weights,
      ShapedSpinEchoSimulator.generate_detuning_distribution ((0 : ℝ), (0 : ℝ)) 1 1 "uniform"
        = .ok (values, weights) ∧
      (∀ w ∈ weights, 0 ≤ w) ∧ weights.sum = 1 ∧
      ShapedSpinEchoSimulator.simulate_sequence (fun _ _ => 0) 0
          ⟨"s", [], some ⟨1, 0, ["sx"]⟩⟩ ((0 : ℝ), (0 : ℝ)) 1 1 "uniform" =
        .ok (ShapedSpinEchoSimulator.aggregate_results
          (values.map (fun _ => fun _ => ([] : List ℂ))) weights ["sx"] 0) ∧
      (∀ obs ∈ (["sx"] : List String),
        ShapedSpinEchoSimulator.aggregate_results
            (values.map (fun _ => fun _ => ([] : List ℂ))) weights ["sx"] 0 obs =
          specWeightedSum weights (values.map (fun _ => ([] : List ℂ))) 0 ∧
        (ShapedSpinEchoSimulator.aggregate_results
            (values.map (fun _ => fun _ => ([] : List ℂ))) weights ["sx"] 0 obs).length = 0) :=
  C1_ensemble_weighted_average (fun _ _ => 0) 0 ⟨"s", [], some ⟨1, 0, ["sx"]⟩⟩
    ⟨1, 0, ["sx"]⟩ rfl ((0 : ℝ), (0 : ℝ)) 1 (le_refl 1) 1 "uniform"
    (Or.inr (Or.inr rfl)) (fun _ => fun _ => ([] : List ℂ)) (fun δ => rfl)

/-- Witness for C8: a successful construction from matching lengths. -/
theorem C8_witness :
    mkPulseShape [0, 1] [2, 3] [4, 5] [6, 7] = .ok ⟨[0, 1], [2, 3], [4, 5], [6, 7]⟩ :=
  (C8_pulse_shape_construction [0, 1] [2, 3] [4, 5] [6, 7]).1.mpr (by norm_num)
